import Mathlib

/-!
Verification development for the `rld_to_mssql` repository's text-extraction
and incremental-upsert engine.

The text side (`txt_manager.py`) is embedded over `List Char` strings with
hand-rolled Python string operations (`strip`, `split`, `replace`, `in`,
`re.sub`), so that every step of `search_param_txt` and
`get_params_from_txt` is mirrored faithfully.  The database side
(`db_manager.py`) is embedded over an explicit store state (a list of
tables, each a list of columns and rows); `create_alter_mssql_table` and
`insert_data_msssql` additionally return the effect they performed
(ALTER statements issued, rows bulk-appended) so theorems can speak about
the operations the code issues.
-/

/-- Python strings are embedded as lists of characters. -/
abbrev PyStr := List Char

/-- The whitespace characters removed by Python's `str.strip()` (ASCII
whitespace as used by the source files). -/
def pyIsSpace (c : Char) : Bool :=
  c = ' ' || c = '\t' || c = '\n' || c = '\r' || c = '\x0b' || c = '\x0c'

/-- Python `s.strip()`: remove whitespace from both ends. -/
def pyStrip (s : PyStr) : PyStr :=
  ((s.dropWhile pyIsSpace).reverse.dropWhile pyIsSpace).reverse

/-- Predicate `pyStartsWith s pat` holds when `pat` starts `s`
(Python `s.startswith(pat)`). -/
def pyStartsWith : PyStr → PyStr → Bool
  | _, [] => true
  | [], _ :: _ => false
  | a :: s, b :: p => (a = b) && pyStartsWith s p

/-- Python's substring test `pat in s`: `pat` occurs contiguously in `s`
(the empty pattern occurs in every string). -/
def pyContains : PyStr → PyStr → Bool
  | [], pat => pat.isEmpty
  | s@(_ :: rest), pat => pyStartsWith s pat || pyContains rest pat

/-- Fuel-driven core of Python `s.replace(pat, rep)`: scan left to right,
replace each leftmost non-overlapping occurrence of `pat` by `rep`.
The fuel is only a termination device; `s.length` fuel always suffices
for a non-empty pattern. -/
def pyReplaceF : Nat → PyStr → PyStr → PyStr → PyStr
  | 0, _, _, s => s
  | _ + 1, _, _, [] => []
  | fuel + 1, pat, rep, a :: rest =>
    if pyStartsWith (a :: rest) pat then
      rep ++ pyReplaceF fuel pat rep ((a :: rest).drop pat.length)
    else
      a :: pyReplaceF fuel pat rep rest

/-- Python `s.replace(pat, rep)`.  For the empty pattern the source only
ever calls this with an empty replacement, where Python returns `s`
unchanged. -/
def pyReplace (pat rep s : PyStr) : PyStr :=
  if pat.isEmpty then s else pyReplaceF s.length pat rep s

/-- Embedding of `re.sub(r'[\n\t\r]', '', s)`: drop tab, line feed and carriage
return characters. -/
def stripCtl (s : PyStr) : PyStr :=
  s.filter (fun c => !(c = '\n' || c = '\t' || c = '\r'))

/-- Python `s.split(sep)` for a single-character separator. -/
def pySplit (c : Char) : PyStr → List PyStr
  | [] => [[]]
  | a :: rest =>
    match pySplit c rest with
    | [] => [[]]
    | h :: t => if a = c then [] :: h :: t else (a :: h) :: t

/-- Value of `param_split[0]`: head of the colon-split of the stripped line
(`line.strip().split(':')[0]` in the source). -/
def pySplitHead (l : PyStr) : PyStr :=
  (pySplit ':' (pyStrip l)).headD []

/-- Result of `search_param_txt`: the 1-based row number of the match
(`-1` when not found) and the extracted value. -/
structure ParamMatch where
  row_num : Int
  param_value : PyStr
deriving DecidableEq, Repr

/-- The value transformation `search_param_txt` applies to a matching row:
remove the searched parameter, strip surrounding whitespace, and replace
the remaining spaces with underscores. -/
def paramTransform (needle l : PyStr) : PyStr :=
  pyReplace [' '] ['_'] (pyStrip (pyReplace needle [] l))

/-- The enumeration loop of `search_param_txt`: scan rows carrying the
1-based row counter. -/
def searchAux (needle : PyStr) : List PyStr → Int → ParamMatch
  | [], _ => ⟨-1, []⟩
  | l :: rest, n =>
    if pyContains l needle then ⟨n, paramTransform needle l⟩
    else searchAux needle rest (n + 1)

/-- Embedding of `search_param_txt` from `txt_manager.py`: scan the document's rows in
order (1-based); the first row containing `seached_param` as a substring
is returned together with its transformed content; otherwise the sentinel
`⟨-1, ""⟩`. -/
def search_param_txt (doc : List PyStr) (seached_param : PyStr) : ParamMatch :=
  searchAux seached_param doc 1

/-- The key stored for a parameter line: `param_split[0].strip()`. -/
def paramKey (l : PyStr) : PyStr :=
  pyStrip (pySplitHead l)

/-- The value stored for a parameter line:
`line.replace(param_split[0] + ":", "")`, stripped, with tab/LF/CR
removed by `re.sub`, and stripped again at the `append` call. -/
def paramValue (l : PyStr) : PyStr :=
  pyStrip (stripCtl (pyStrip (pyReplace (pySplitHead l ++ [':']) [] l)))

/-- One step of Python `dict` assignment `d[k] = v`: overwrite the value
at an existing key in place, otherwise append a new entry. -/
def dictUpd (m : List (PyStr × PyStr)) (k v : PyStr) : List (PyStr × PyStr) :=
  if m.any (fun p => p.1 = k) then
    m.map (fun p => if p.1 = k then (k, v) else p)
  else
    m ++ [(k, v)]

/-- Python `dict(zip(keys, vals))`: insert the pairs left to right, later
values overwriting earlier ones at the same key. -/
def dictZip (ks vs : List PyStr) : List (PyStr × PyStr) :=
  (ks.zip vs).foldl (fun m p => dictUpd m p.1 p.2) []

/-- Result of `get_params_from_txt`: Python `None` (control flows off the
end of the function or an exception is swallowed), the empty
`pd.DataFrame()` (header not found / bad arguments), or a one-row frame
built from the accumulated parameter dictionary. -/
inductive GPResult where
  | noneR : GPResult
  | emptyDF : GPResult
  | record : List (PyStr × PyStr) → GPResult
deriving DecidableEq, Repr

/-- The line loop of `get_params_from_txt`: while `skip_count` has not
reached `skip_rows`, consume a line and bump the counter; afterwards a
line that is empty after stripping terminates the block and the
accumulated keys/values are zipped into a dict; any other line
contributes one key/value pair.  Running out of lines falls off the end
of the Python function, i.e. returns `None`. -/
def gpLoop (skip_rows : Nat) : List PyStr → Nat → List PyStr → List PyStr → GPResult
  | [], _, _, _ => .noneR
  | line :: rest, skip_count, keys, vals =>
    if skip_count = skip_rows then
      if pyStrip line = [] then
        .record (dictZip keys vals)
      else
        gpLoop skip_rows rest skip_count (keys ++ [paramKey line]) (vals ++ [paramValue line])
    else
      gpLoop skip_rows rest (skip_count + 1) keys vals

/-- Embedding of `get_params_from_txt` from `txt_manager.py`.  If `param_line` is `0`
the start row comes from `search_param_txt`, otherwise `param_line` is
used directly.  When the start row is positive and `skip_rows` is
non-negative the file is consumed up to the start row (`next` raising
`StopIteration` on a too-short file is swallowed into `None`) and the
line loop runs; otherwise the empty DataFrame is returned. -/
def get_params_from_txt (doc : List PyStr) (header : PyStr)
    (param_line : Int) (skip_rows : Int) : GPResult :=
  let row_number : Int :=
    if param_line = 0 then (search_param_txt doc header).row_num else param_line
  if row_number > 0 ∧ skip_rows ≥ 0 then
    let n := (row_number - 1).toNat
    if doc.length < n then .noneR
    else gpLoop skip_rows.toNat (doc.drop n) 0 [] []
  else .emptyDF

/-- Pandas column dtypes distinguished by `db_manager.py`. -/
inductive ColType where
  | int64 : ColType
  | object : ColType
  | datetime64 : ColType
  | float64 : ColType
  | otherT : ColType
deriving DecidableEq, Repr

/-- Cell values.  Timestamps are abstracted to naturals, floats to a
rational-free integer encoding is not needed by any claim, and `vNull`
is the SQL NULL filled into columns a row does not provide. -/
inductive Value where
  | vInt : Int → Value
  | vStr : String → Value
  | vDate : Nat → Value
  | vNull : Value
deriving DecidableEq, Repr

/-- Type mapping used when creating a fresh table
(`sa.Integer` / `sa.String` / `sa.DateTime` / `sa.Float`). -/
def createTypeMap : ColType → String
  | .int64 => "Integer"
  | .object => "String"
  | .datetime64 => "DateTime"
  | .float64 => "Float"
  | .otherT => "String"

/-- Type mapping used when altering an existing table
(the `new_col_type` strings of the ALTER branch). -/
def alterTypeMap : ColType → String
  | .int64 => "SMALLINT"
  | .object => "VARCHAR(512)"
  | .datetime64 => "DATETIME"
  | .float64 => "FLOAT"
  | .otherT => "VARCHAR(512)"

/-- A destination table column: name, type (as mapped), primary-key flag. -/
structure Column where
  name : String
  ctype : String
  primary_key : Bool
deriving DecidableEq, Repr

/-- First index satisfying a predicate (`Series.str` position lookups
and column-index computations). -/
def idxOf? {α : Type} (p : α → Bool) : List α → Option Nat
  | [] => none
  | a :: t => if p a then some 0 else (idxOf? p t).map (fun i => i + 1)

/-- A pandas DataFrame: named, typed columns and positional rows. -/
structure DataFrame where
  cols : List (String × ColType)
  rows : List (List Value)
deriving DecidableEq, Repr

/-- Pandas `df.empty`: true when either axis has length zero. -/
def DataFrame.isEmpty (df : DataFrame) : Bool :=
  df.rows.isEmpty || df.cols.isEmpty

/-- Index of a named DataFrame column. -/
def DataFrame.colIdx? (df : DataFrame) (c : String) : Option Nat :=
  idxOf? (fun p => p.1 = c) df.cols

/-- A destination (MSSQL) table. -/
structure Table where
  name : String
  cols : List Column
  rows : List (List Value)
deriving DecidableEq, Repr

/-- Index of a named table column. -/
def Table.colIdx? (t : Table) (c : String) : Option Nat :=
  idxOf? (fun col => col.name = c) t.cols

/-- The relational store: the set of existing tables. -/
structure Store where
  tables : List Table
deriving DecidableEq, Repr

def Store.getTable? (s : Store) (n : String) : Option Table :=
  s.tables.find? (fun t => t.name = n)

def Store.hasTable (s : Store) (n : String) : Bool :=
  (s.getTable? n).isSome

def Store.addTable (s : Store) (t : Table) : Store :=
  ⟨s.tables ++ [t]⟩

/-- Replace the table with the given name. -/
def Store.setTable (s : Store) (t : Table) : Store :=
  ⟨s.tables.map (fun u => if u.name = t.name then t else u)⟩

/-- Cell access on a positional row (out-of-range reads are NULL; rows
always match their table's arity in practice). -/
def rowCell (r : List Value) (i : Nat) : Value :=
  r.getD i .vNull

/-- The merged frame of `pd.merge(left, right, how='left',
indicator=True)` restricted to what the source consumes: each left row
tagged with whether it matched; a left row matching `k` right rows
appears `k` times tagged `true` (`both`), an unmatched one appears once
tagged `false` (`left_only`). -/
def mergedIndicator {α β : Type} (eqk : α → β → Bool) :
    List α → List β → List (α × Bool)
  | [], _ => []
  | a :: l, right =>
    (if (right.filter (eqk a)).isEmpty then [(a, false)]
     else (right.filter (eqk a)).map (fun _ => (a, true)))
      ++ mergedIndicator eqk l right

/-- Embedding of `merge_df.loc[merge_df._merge=='left_only']`: the rows of the merged
frame that did not match. -/
def leftOnly {α β : Type} (eqk : α → β → Bool)
    (left : List α) (right : List β) : List α :=
  (mergedIndicator eqk left right).filterMap
    (fun p => if p.2 then none else some p.1)

/-- Pandas `.str.upper()`, applied character-wise (identifiers are ASCII). -/
def pyUpper (s : String) : String :=
  String.mk (s.data.map Char.toUpper)

/-- Case-insensitive column-name comparison (`.str.upper()` on both
sides, because MSSQL identifiers are not case sensitive). -/
def ciEq (a b : String) : Bool :=
  pyUpper a = pyUpper b

/-- Embedding of `create_alter_mssql_table` from `db_manager.py`, with the list of
issued ALTER ADD operations `(column name, mapped type)` returned as an
effect log alongside the updated store and the boolean result.

* empty batch: warn and return `false`, no schema action;
* table absent: build one column per batch column via `createTypeMap`;
  if the primary-key column is among the batch columns create the table
  (marking the key primary iff `pk_flag`), else log an error and return
  `false` without creating anything;
* table present: left-join the batch columns against the table columns
  on upper-cased names and `ALTER TABLE ... ADD` each `left_only` batch
  column with `alterTypeMap`; existing columns are untouched (new ones
  are appended, existing rows extended with NULL). -/
def create_alter_mssql_table (store : Store) (table_name : String)
    (data_to_insert : DataFrame) (pk_column : String) (pk_flag : Bool) :
    Store × Bool × List (String × String) :=
  let tbl_exist := store.hasTable table_name
  if !data_to_insert.isEmpty then
    if !tbl_exist then
      let mssql_cols : List Column :=
        data_to_insert.cols.map (fun p => ⟨p.1, createTypeMap p.2, false⟩)
      if data_to_insert.cols.any (fun p => p.1 = pk_column) && pk_flag then
        let cols' := mssql_cols.map
          (fun c => if c.name = pk_column then { c with primary_key := true } else c)
        (store.addTable ⟨table_name, cols', []⟩, true, [])
      else if data_to_insert.cols.any (fun p => p.1 = pk_column) && !pk_flag then
        (store.addTable ⟨table_name, mssql_cols, []⟩, true, [])
      else
        (store, false, [])
    else
      match store.getTable? table_name with
      | none => (store, false, [])
      | some tbl =>
        let lj_col_names :=
          leftOnly (fun (p : String × ColType) (c : Column) => ciEq p.1 c.name)
            data_to_insert.cols tbl.cols
        let alters := lj_col_names.map (fun p => (p.1, alterTypeMap p.2))
        let tbl' : Table :=
          { tbl with
            cols := tbl.cols ++ lj_col_names.map (fun p => ⟨p.1, alterTypeMap p.2, false⟩),
            rows := tbl.rows.map (fun r => r ++ lj_col_names.map (fun _ => Value.vNull)) }
        (store.setTable tbl', true, alters)
  else
    (store, false, [])

/-- One row of `new_records.to_sql(..., if_exists='append')`: the batch
row is aligned to the destination table's columns by (case-insensitive)
name; table columns the batch does not provide receive NULL. -/
def alignRow (tbl : Table) (cols : List (String × ColType)) (r : List Value) :
    List Value :=
  tbl.cols.map (fun tc =>
    match idxOf? (fun p => ciEq p.1 tc.name) cols with
    | some i => rowCell r i
    | none => Value.vNull)

/-- Embedding of `to_sql(..., if_exists='append')`: every batch column must exist on
the destination table (otherwise the insert errors), then the aligned
rows are appended. -/
def appendRows (tbl : Table) (cols : List (String × ColType))
    (rows : List (List Value)) : Option Table :=
  if cols.all (fun p => tbl.cols.any (fun tc => ciEq p.1 tc.name)) then
    some { tbl with rows := tbl.rows ++ rows.map (alignRow tbl cols) }
  else
    none

/-- Embedding of `insert_data_msssql` from `db_manager.py`.  Returns the updated
store, the Python return value (`none` when an exception was logged and
the function returned `None`, otherwise `some` of the row count or the
`-1` sentinel), and the DataFrame of rows handed to `to_sql` (the
`new_records` frame, i.e. the surviving batch rows with all original
batch columns in original order).

* Mode A (`fk_column = ""`): `SELECT [pk_column] FROM table` (the query
  raises when the table or the column is missing → `None`), left-merge
  the batch against the existing values on `pk_column` with an
  indicator, keep `left_only` rows restricted to the batch columns, and
  either bulk-append them (returning the inserted count) or return the
  `-1` sentinel when nothing survived;
* Mode B (`fk_column ≠ ""`): the existing values are
  `SELECT [fk_column] ... WHERE [pk_column] = pk_value` and the merge
  key is `fk_column`; same return contract. -/
def insert_data_msssql (store : Store) (table_name : String)
    (data_to_insert : DataFrame) (pk_column : String) (pk_value : Value)
    (fk_column : String) : Store × Option Int × List (List Value) :=
  match store.getTable? table_name with
  | none => (store, none, [])
  | some tbl =>
    if fk_column = "" then
      match tbl.colIdx? pk_column with
      | none => (store, none, [])
      | some ti =>
        let existing_tms := tbl.rows.map (fun r => rowCell r ti)
        match data_to_insert.colIdx? pk_column with
        | none => (store, none, [])
        | some bi =>
          let new_records :=
            leftOnly (fun r v => rowCell r bi = v) data_to_insert.rows existing_tms
          if 0 < new_records.length then
            match appendRows tbl data_to_insert.cols new_records with
            | none => (store, none, [])
            | some tbl' => (store.setTable tbl', some new_records.length, new_records)
          else
            (store, some (-1), [])
    else
      match tbl.colIdx? pk_column, tbl.colIdx? fk_column with
      | some ti, some fi =>
        let existing_tms :=
          (tbl.rows.filter (fun r => rowCell r ti = pk_value)).map
            (fun r => rowCell r fi)
        match data_to_insert.colIdx? fk_column with
        | none => (store, none, [])
        | some bi =>
          let new_records :=
            leftOnly (fun r v => rowCell r bi = v) data_to_insert.rows existing_tms
          if 0 < new_records.length then
            match appendRows tbl data_to_insert.cols new_records with
            | none => (store, none, [])
            | some tbl' => (store.setTable tbl', some new_records.length, new_records)
          else
            (store, some (-1), [])
      | _, _ => (store, none, [])

theorem filter_isEmpty_eq_not_any {β : Type} (p : β → Bool) (l : List β) :
    (l.filter p).isEmpty = !(l.any p) := by
  induction l with
  | nil => rfl
  | cons b t ih =>
    by_cases h : p b <;> simp [List.filter_cons, h, ih]

/-- The pandas left-merge/indicator/`left_only` pipeline is the anti-join:
it keeps exactly the left rows matching no right row, in order. -/
theorem leftOnly_eq_filter {α β : Type} (eqk : α → β → Bool)
    (left : List α) (right : List β) :
    leftOnly eqk left right = left.filter (fun a => !(right.any (eqk a))) := by
  induction left with
  | nil => rfl
  | cons a l ih =>
    unfold leftOnly mergedIndicator
    rw [List.filterMap_append]
    by_cases h : (right.filter (eqk a)).isEmpty
    · have hany : right.any (eqk a) = false := by
        have := filter_isEmpty_eq_not_any (eqk a) right
        rw [h] at this
        exact (Bool.not_eq_true' _).mp this.symm
      simp [h, hany, List.filter_cons, leftOnly] at ih ⊢
      exact ih
    · have hany : right.any (eqk a) = true := by
        cases hh : right.any (eqk a)
        · exact absurd (by simp [filter_isEmpty_eq_not_any, hh]) h
        · rfl
      have hmap : ((right.filter (eqk a)).map (fun _ => (a, true))).filterMap
          (fun p : α × Bool => if p.2 then none else some p.1) = [] := by
        induction (right.filter (eqk a)) with
        | nil => rfl
        | cons c t ih2 => simp [ih2]
      simp [h, hany, List.filter_cons, hmap, leftOnly] at ih ⊢
      exact ih

/-- Characterization of Mode A of `insert_data_msssql`: anti-join on the
key column against the existing key values, append the survivors, count
or `-1` sentinel. -/
theorem insert_modeA_spec (store : Store) (table_name : String)
    (data_to_insert : DataFrame) (pk_column : String) (pk_value : Value)
    (tbl : Table) (ti bi : Nat)
    (htbl : store.getTable? table_name = some tbl)
    (_hne : data_to_insert.rows ≠ [])
    (hti : tbl.colIdx? pk_column = some ti)
    (hbi : data_to_insert.colIdx? pk_column = some bi)
    (hcols : data_to_insert.cols.all
      (fun p => tbl.cols.any (fun tc => ciEq p.1 tc.name)) = true) :
    insert_data_msssql store table_name data_to_insert pk_column pk_value "" =
      (let existing := tbl.rows.map (fun r => rowCell r ti)
       let survivors := data_to_insert.rows.filter
         (fun r => !(existing.any (fun v => rowCell r bi = v)))
       if survivors.isEmpty then (store, some (-1), [])
       else
         (store.setTable
            { tbl with
              rows := tbl.rows ++ survivors.map (alignRow tbl data_to_insert.cols) },
          some (survivors.length : Int), survivors)) := by
  simp only [insert_data_msssql, htbl, hti, hbi, leftOnly_eq_filter, appendRows,
    hcols, if_pos, reduceIte]
  cases hfilt : data_to_insert.rows.filter
      (fun r => !((tbl.rows.map (fun r => rowCell r ti)).any
        (fun v => rowCell r bi = v))) with
  | nil => simp
  | cons r rs => simp

/-- C1: Mode A of `insert_data_msssql` (no foreign key): against an
existing table whose key column and whose batch key column resolve, the
function bulk-appends exactly the batch rows whose key-column value is
not among the key-column values queried from the table — the appended
frame (`new_records`) keeps all original batch columns in original
order — and returns that count, or the `-1` sentinel as a normal result
when no batch row survives the anti-join. -/
theorem C1_upsert_modeA (store : Store) (table_name : String)
    (data_to_insert : DataFrame) (pk_column : String) (pk_value : Value)
    (tbl : Table) (ti bi : Nat)
    (htbl : store.getTable? table_name = some tbl)
    (hne : data_to_insert.rows ≠ [])
    (hti : tbl.colIdx? pk_column = some ti)
    (hbi : data_to_insert.colIdx? pk_column = some bi)
    (hcols : data_to_insert.cols.all
      (fun p => tbl.cols.any (fun tc => ciEq p.1 tc.name)) = true) :
    insert_data_msssql store table_name data_to_insert pk_column pk_value "" =
      (let existing := tbl.rows.map (fun r => rowCell r ti)
       let survivors := data_to_insert.rows.filter
         (fun r => !(existing.any (fun v => rowCell r bi = v)))
       if survivors.isEmpty then (store, some (-1), [])
       else
         (store.setTable
            { tbl with
              rows := tbl.rows ++ survivors.map (alignRow tbl data_to_insert.cols) },
          some (survivors.length : Int), survivors)) :=
  insert_modeA_spec store table_name data_to_insert pk_column pk_value tbl ti bi
    htbl hne hti hbi hcols

/-- Concrete instantiation of `C1_upsert_modeA`: a table holding key 1,
a batch with keys 1 and 2; only the key-2 row is appended and the count
is 1. -/
theorem C1_upsert_modeA_witness :
    insert_data_msssql
      ⟨[⟨"T", [⟨"Timestamp", "DateTime", true⟩], [[Value.vDate 1]]⟩]⟩ "T"
      ⟨[("Timestamp", ColType.datetime64)], [[Value.vDate 1], [Value.vDate 2]]⟩
      "Timestamp" (Value.vStr "") "" =
      (⟨[⟨"T", [⟨"Timestamp", "DateTime", true⟩],
          [[Value.vDate 1], [Value.vDate 2]]⟩]⟩, some 1, [[Value.vDate 2]]) := by
  have h := C1_upsert_modeA
    ⟨[⟨"T", [⟨"Timestamp", "DateTime", true⟩], [[Value.vDate 1]]⟩]⟩ "T"
    ⟨[("Timestamp", ColType.datetime64)], [[Value.vDate 1], [Value.vDate 2]]⟩
    "Timestamp" (Value.vStr "") ⟨"T", [⟨"Timestamp", "DateTime", true⟩], [[Value.vDate 1]]⟩
    0 0 (by rfl) (by decide) (by rfl) (by rfl) (by decide)
  rw [h]
  decide

/-- C3: Mode B of `insert_data_msssql` (foreign-key column given): a
batch row is excluded exactly when its foreign-key value already occurs
among the table rows whose key column equals `pk_value` (the scoped
existence set); in particular a batch row whose foreign-key value occurs
in the table only under a different key value survives the anti-join and
is appended.  The count / `-1` return contract is the same as Mode A. -/
theorem C3_upsert_modeB (store : Store) (table_name : String)
    (data_to_insert : DataFrame) (pk_column : String) (pk_value : Value)
    (fk_column : String) (tbl : Table) (ti fi bi : Nat)
    (hfk : fk_column ≠ "")
    (htbl : store.getTable? table_name = some tbl)
    (hti : tbl.colIdx? pk_column = some ti)
    (hfi : tbl.colIdx? fk_column = some fi)
    (hbi : data_to_insert.colIdx? fk_column = some bi)
    (hcols : data_to_insert.cols.all
      (fun p => tbl.cols.any (fun tc => ciEq p.1 tc.name)) = true) :
    (let scopedVals := (tbl.rows.filter (fun r => rowCell r ti = pk_value)).map
       (fun r => rowCell r fi)
     let survivors := data_to_insert.rows.filter
       (fun r => !(scopedVals.any (fun v => rowCell r bi = v)))
     insert_data_msssql store table_name data_to_insert pk_column pk_value fk_column =
       (if survivors.isEmpty then (store, some (-1), [])
        else
          (store.setTable
             { tbl with
               rows := tbl.rows ++ survivors.map (alignRow tbl data_to_insert.cols) },
           some (survivors.length : Int), survivors)) ∧
     ∀ r ∈ data_to_insert.rows,
       (∀ tr ∈ tbl.rows, rowCell tr ti = pk_value → rowCell tr fi ≠ rowCell r bi) →
       r ∈ survivors) := by
  refine ⟨?_, ?_⟩
  · simp only [insert_data_msssql, htbl, if_neg hfk, hti, hfi, hbi,
      leftOnly_eq_filter, appendRows, hcols, reduceIte]
    cases hfilt : data_to_insert.rows.filter
        (fun r => !(((tbl.rows.filter (fun r => rowCell r ti = pk_value)).map
          (fun r => rowCell r fi)).any (fun v => rowCell r bi = v))) with
    | nil => simp
    | cons r rs => simp
  · intro r hr hdiff
    refine List.mem_filter.mpr ⟨hr, ?_⟩
    simp only [Bool.not_eq_true', List.any_eq_false, List.mem_map, List.mem_filter,
      decide_eq_true_eq, decide_eq_false_iff_not]
    rintro v ⟨tr, ⟨htr2, hkey⟩, rfl⟩
    exact fun hEq => hdiff tr htr2 hkey (Eq.symm hEq)

/-- Concrete instantiation of `C3_upsert_modeB`: the sensors table holds
channel 1 under site "41" and channel 2 under site "42"; a batch of two
channel rows under site "42" keeps only channel 1 (present under a
different site) and skips channel 2 (already present for that site). -/
theorem C3_upsert_modeB_witness :
    insert_data_msssql
      ⟨[⟨"NRG_Sensors",
         [⟨"Site Number", "String", false⟩, ⟨"Channel", "Integer", false⟩],
         [[Value.vStr "41", Value.vInt 1], [Value.vStr "42", Value.vInt 2]]⟩]⟩
      "NRG_Sensors"
      ⟨[("Site Number", ColType.object), ("Channel", ColType.int64)],
       [[Value.vStr "42", Value.vInt 1], [Value.vStr "42", Value.vInt 2]]⟩
      "Site Number" (Value.vStr "42") "Channel" =
      (⟨[⟨"NRG_Sensors",
          [⟨"Site Number", "String", false⟩, ⟨"Channel", "Integer", false⟩],
          [[Value.vStr "41", Value.vInt 1], [Value.vStr "42", Value.vInt 2],
           [Value.vStr "42", Value.vInt 1]]⟩]⟩,
       some 1, [[Value.vStr "42", Value.vInt 1]]) := by
  have h := (C3_upsert_modeB
    ⟨[⟨"NRG_Sensors",
       [⟨"Site Number", "String", false⟩, ⟨"Channel", "Integer", false⟩],
       [[Value.vStr "41", Value.vInt 1], [Value.vStr "42", Value.vInt 2]]⟩]⟩
    "NRG_Sensors"
    ⟨[("Site Number", ColType.object), ("Channel", ColType.int64)],
     [[Value.vStr "42", Value.vInt 1], [Value.vStr "42", Value.vInt 2]]⟩
    "Site Number" (Value.vStr "42") "Channel"
    ⟨"NRG_Sensors",
     [⟨"Site Number", "String", false⟩, ⟨"Channel", "Integer", false⟩],
     [[Value.vStr "41", Value.vInt 1], [Value.vStr "42", Value.vInt 2]]⟩
    0 1 1 (by decide) (by rfl) (by rfl) (by rfl) (by rfl) (by decide)).1
  rw [h]
  decide

/-- Error paths of the insert operation: when the initial query raises
(the table is missing, or the selected key / foreign-key column does
not exist on it), `insert_data_msssql` logs the exception and returns
`None` with the store unchanged; no further store operation runs. -/
theorem insert_error_spec (store : Store) (table_name : String)
    (data_to_insert : DataFrame) (pk_column : String) (pk_value : Value)
    (fk_column : String)
    (herr : store.getTable? table_name = none ∨
      (∃ tbl, store.getTable? table_name = some tbl ∧ fk_column = "" ∧
        tbl.colIdx? pk_column = none) ∨
      (∃ tbl, store.getTable? table_name = some tbl ∧ fk_column ≠ "" ∧
        (tbl.colIdx? pk_column = none ∨ tbl.colIdx? fk_column = none))) :
    insert_data_msssql store table_name data_to_insert pk_column pk_value fk_column =
      (store, none, []) := by
  rcases herr with h | ⟨tbl, htbl, hfk, hpk⟩ | ⟨tbl, htbl, hfk, hcol⟩
  · simp [insert_data_msssql, h]
  · simp [insert_data_msssql, htbl, hfk, hpk]
  · rcases hcol with hpk | hfkc
    · cases hf : tbl.colIdx? fk_column <;>
        simp [insert_data_msssql, htbl, if_neg hfk, hpk, hf]
    · cases hp : tbl.colIdx? pk_column <;>
        simp [insert_data_msssql, htbl, if_neg hfk, hp, hfkc]


/-- C5: calling `create_alter_mssql_table` on a non-empty batch whose
columns do not contain the declared key column, against an absent
table, fails with the missing-key outcome: the store is unchanged (no
table created, no ALTER issued) and the result is `false`; and on an
empty batch it likewise performs no schema action and returns `false`. -/
theorem C5_missing_key_or_empty (store : Store) (table_name : String)
    (data_to_insert : DataFrame) (pk_column : String) (pk_flag : Bool) :
    (store.hasTable table_name = false →
     data_to_insert.isEmpty = false →
     data_to_insert.cols.any (fun p => p.1 = pk_column) = false →
     create_alter_mssql_table store table_name data_to_insert pk_column pk_flag =
       (store, false, [])) ∧
    (data_to_insert.isEmpty = true →
     create_alter_mssql_table store table_name data_to_insert pk_column pk_flag =
       (store, false, [])) := by
  constructor
  · intro hex hne hpk
    simp [create_alter_mssql_table, hex, hne, hpk]
  · intro hemp
    simp [create_alter_mssql_table, hemp]

/-- Concrete instantiation of `C5_missing_key_or_empty`: a batch without
the `Timestamp` key column does not create the absent table and returns
`false`; an empty batch returns `false` as well. -/
theorem C5_missing_key_or_empty_witness :
    create_alter_mssql_table ⟨[]⟩ "T"
      ⟨[("Val1", ColType.int64)], [[Value.vInt 7]]⟩ "Timestamp" true =
      (⟨[]⟩, false, []) ∧
    create_alter_mssql_table ⟨[]⟩ "T"
      ⟨[("Timestamp", ColType.datetime64)], []⟩ "Timestamp" true =
      (⟨[]⟩, false, []) :=
  ⟨(C5_missing_key_or_empty ⟨[]⟩ "T"
      ⟨[("Val1", ColType.int64)], [[Value.vInt 7]]⟩ "Timestamp" true).1
      (by rfl) (by rfl) (by rfl),
   (C5_missing_key_or_empty ⟨[]⟩ "T"
      ⟨[("Timestamp", ColType.datetime64)], []⟩ "Timestamp" true).2 (by rfl)⟩

theorem ciEq_refl (a : String) : ciEq a a = true := by
  simp [ciEq]

theorem getTable?_name (s : Store) (n : String) (t : Table)
    (h : s.getTable? n = some t) : t.name = n := by
  unfold Store.getTable? at h
  have h2 := List.find?_some h
  exact of_decide_eq_true h2

theorem find?_map_replace (l : List Table) (t2 : Table) (n : String)
    (hname : t2.name = n)
    (hex : (l.find? (fun t => t.name = n)).isSome = true) :
    (l.map (fun u => if u.name = t2.name then t2 else u)).find?
      (fun t => t.name = n) = some t2 := by
  induction l with
  | nil => simp at hex
  | cons u rest ih =>
    by_cases hu : u.name = n
    · simp [List.find?_cons, hu, hname]
    · have hex2 : (rest.find? (fun t => t.name = n)).isSome = true := by
        simpa [List.find?_cons, hu] using hex
      simpa [List.find?_cons, hu, hname] using ih hex2

theorem getTable?_setTable (s : Store) (n : String) (t t2 : Table)
    (h : s.getTable? n = some t) (hname : t2.name = n) :
    (s.setTable t2).getTable? n = some t2 := by
  unfold Store.getTable? Store.setTable
  exact find?_map_replace s.tables t2 n hname (by unfold Store.getTable? at h; simp [h])

theorem setTable_idem (s : Store) (t : Table) :
    (s.setTable t).setTable t = s.setTable t := by
  unfold Store.setTable
  simp only [List.map_map]
  congr 1
  apply List.map_congr_left
  intro u _
  by_cases hu : u.name = t.name <;> simp [Function.comp, hu]

/-- The batch columns absent from a table under the case-insensitive
comparison: the columns `create_alter_mssql_table` must ADD. -/
def missingCols (tbl : Table) (df : DataFrame) : List (String × ColType) :=
  df.cols.filter (fun p => !(tbl.cols.any (fun tc => ciEq p.1 tc.name)))

/-- The table after `create_alter_mssql_table`'s ALTER loop: existing
columns untouched, one appended column per missing batch column, rows
padded with NULL. -/
def alteredTable (tbl : Table) (df : DataFrame) : Table :=
  { tbl with
    cols := tbl.cols ++ (missingCols tbl df).map
      (fun p => ⟨p.1, alterTypeMap p.2, false⟩),
    rows := tbl.rows.map
      (fun r => r ++ (missingCols tbl df).map (fun _ => Value.vNull)) }

/-- C4: calling `create_alter_mssql_table` on an existing table and a
non-empty batch compares column names case-insensitively (upper-cased on
both sides), issues exactly one `ALTER ... ADD` per batch column absent
from the table under that comparison — appended after the untouched
existing columns, never altering or dropping any of them — and returns
`true`; a second call with the same batch against the reconciled table
issues zero ALTER operations and leaves the store unchanged. -/
theorem C4_ensure_schema (store : Store) (table_name : String)
    (data_to_insert : DataFrame) (pk_column : String) (pk_flag : Bool)
    (tbl : Table)
    (htbl : store.getTable? table_name = some tbl)
    (hne : data_to_insert.isEmpty = false) :
    create_alter_mssql_table store table_name data_to_insert pk_column pk_flag =
      (store.setTable (alteredTable tbl data_to_insert), true,
       (missingCols tbl data_to_insert).map (fun p => (p.1, alterTypeMap p.2))) ∧
    create_alter_mssql_table (store.setTable (alteredTable tbl data_to_insert))
        table_name data_to_insert pk_column pk_flag =
      (store.setTable (alteredTable tbl data_to_insert), true, []) := by
  have hhas : store.hasTable table_name = true := by
    unfold Store.hasTable
    simp [htbl]
  have hname2 : (alteredTable tbl data_to_insert).name = table_name :=
    getTable?_name store table_name tbl htbl
  have htbl2 : (store.setTable (alteredTable tbl data_to_insert)).getTable?
      table_name = some (alteredTable tbl data_to_insert) :=
    getTable?_setTable store table_name tbl (alteredTable tbl data_to_insert)
      htbl hname2
  have hhas2 : (store.setTable (alteredTable tbl data_to_insert)).hasTable
      table_name = true := by
    unfold Store.hasTable
    simp [htbl2]
  have hmiss2 : missingCols (alteredTable tbl data_to_insert) data_to_insert = [] := by
    unfold missingCols
    rw [List.filter_eq_nil_iff]
    intro p hp
    simp only [Bool.not_eq_true', Bool.not_eq_false]
    cases htc : tbl.cols.any (fun tc => ciEq p.1 tc.name) with
    | true =>
      unfold alteredTable
      simp [List.any_append, htc]
    | false =>
      have hpm : p ∈ missingCols tbl data_to_insert :=
        List.mem_filter.mpr ⟨hp, by simp [htc]⟩
      unfold alteredTable
      rw [List.any_append]
      have hadd : ((missingCols tbl data_to_insert).map
          (fun q => (Column.mk q.1 (alterTypeMap q.2) false))).any
          (fun tc => ciEq p.1 tc.name) = true := by
        rw [List.any_eq_true]
        exact ⟨Column.mk p.1 (alterTypeMap p.2) false,
          List.mem_map_of_mem _ hpm, ciEq_refl p.1⟩
      simp [hadd]
  constructor
  · simp only [create_alter_mssql_table, hhas, hne, htbl, leftOnly_eq_filter,
      Bool.not_false, Bool.not_true, reduceIte]
    rfl
  · simp only [create_alter_mssql_table, hhas2, hne, htbl2, leftOnly_eq_filter,
      Bool.not_false, Bool.not_true, reduceIte]
    have hsame : data_to_insert.cols.filter
        (fun p => !((alteredTable tbl data_to_insert).cols.any
          (fun tc => ciEq p.1 tc.name))) = [] := hmiss2
    rw [hsame]
    simp [setTable_idem]

/-- Concrete instantiation of `C4_ensure_schema`: a batch with one new
column `NewMetric` causes exactly one ADD-COLUMN (`FLOAT`), appended
after the untouched existing columns; the second call issues none. -/
theorem C4_ensure_schema_witness :
    create_alter_mssql_table
      ⟨[⟨"T", [⟨"Timestamp", "DateTime", true⟩, ⟨"Val1", "Integer", false⟩],
         [[Value.vDate 1, Value.vInt 10]]⟩]⟩ "T"
      ⟨[("Timestamp", ColType.datetime64), ("Val1", ColType.int64),
        ("NewMetric", ColType.float64)], [[Value.vDate 2, Value.vInt 20, Value.vInt 0]]⟩
      "Timestamp" true =
      (⟨[⟨"T", [⟨"Timestamp", "DateTime", true⟩, ⟨"Val1", "Integer", false⟩,
          ⟨"NewMetric", "FLOAT", false⟩],
          [[Value.vDate 1, Value.vInt 10, Value.vNull]]⟩]⟩, true,
       [("NewMetric", "FLOAT")]) ∧
    create_alter_mssql_table
      ⟨[⟨"T", [⟨"Timestamp", "DateTime", true⟩, ⟨"Val1", "Integer", false⟩,
         ⟨"NewMetric", "FLOAT", false⟩],
         [[Value.vDate 1, Value.vInt 10, Value.vNull]]⟩]⟩ "T"
      ⟨[("Timestamp", ColType.datetime64), ("Val1", ColType.int64),
        ("NewMetric", ColType.float64)], [[Value.vDate 2, Value.vInt 20, Value.vInt 0]]⟩
      "Timestamp" true =
      (⟨[⟨"T", [⟨"Timestamp", "DateTime", true⟩, ⟨"Val1", "Integer", false⟩,
          ⟨"NewMetric", "FLOAT", false⟩],
          [[Value.vDate 1, Value.vInt 10, Value.vNull]]⟩]⟩, true, []) := by
  have h := C4_ensure_schema
    ⟨[⟨"T", [⟨"Timestamp", "DateTime", true⟩, ⟨"Val1", "Integer", false⟩],
       [[Value.vDate 1, Value.vInt 10]]⟩]⟩ "T"
    ⟨[("Timestamp", ColType.datetime64), ("Val1", ColType.int64),
      ("NewMetric", ColType.float64)], [[Value.vDate 2, Value.vInt 20, Value.vInt 0]]⟩
    "Timestamp" true
    ⟨"T", [⟨"Timestamp", "DateTime", true⟩, ⟨"Val1", "Integer", false⟩],
     [[Value.vDate 1, Value.vInt 10]]⟩ (by rfl) (by rfl)
  refine ⟨?_, ?_⟩
  · rw [h.1]
    decide
  · have h2 := h.2
    rw [show (⟨[⟨"T", [⟨"Timestamp", "DateTime", true⟩, ⟨"Val1", "Integer", false⟩],
        [[Value.vDate 1, Value.vInt 10]]⟩]⟩ : Store).setTable
        (alteredTable
          ⟨"T", [⟨"Timestamp", "DateTime", true⟩, ⟨"Val1", "Integer", false⟩],
           [[Value.vDate 1, Value.vInt 10]]⟩
          ⟨[("Timestamp", ColType.datetime64), ("Val1", ColType.int64),
            ("NewMetric", ColType.float64)],
           [[Value.vDate 2, Value.vInt 20, Value.vInt 0]]⟩) =
        ⟨[⟨"T", [⟨"Timestamp", "DateTime", true⟩, ⟨"Val1", "Integer", false⟩,
           ⟨"NewMetric", "FLOAT", false⟩],
           [[Value.vDate 1, Value.vInt 10, Value.vNull]]⟩]⟩ from by decide] at h2
    rw [h2]

theorem idxOf?_some_any {α : Type} (p : α → Bool) (l : List α) (i : Nat)
    (h : idxOf? p l = some i) : l.any p = true := by
  induction l generalizing i with
  | nil => simp [idxOf?] at h
  | cons a t ih =>
    unfold idxOf? at h
    by_cases ha : p a = true
    · simp [ha]
    · simp only [ha, Bool.false_eq_true, if_false] at h
      rcases Option.map_eq_some'.mp h with ⟨j, hj, _⟩
      simp [List.any_cons, ha, ih j hj]

theorem idxOf?_some_lt {α : Type} (p : α → Bool) (l : List α) (i : Nat)
    (h : idxOf? p l = some i) : i < l.length := by
  induction l generalizing i with
  | nil => simp [idxOf?] at h
  | cons a t ih =>
    unfold idxOf? at h
    by_cases ha : p a = true
    · simp only [ha, if_true] at h
      cases h
      simp
    · simp only [ha, Bool.false_eq_true, if_false] at h
      rcases Option.map_eq_some'.mp h with ⟨j, hj, rfl⟩
      simpa using ih j hj

/-- Computing `idxOf?` over a name-preserving column construction coincides with
`idxOf?` over the underlying batch columns. -/
theorem idxOf?_name_map (g : String × ColType → Column)
    (hg : ∀ p, (g p).name = p.1) (l : List (String × ColType)) (c : String) :
    idxOf? (fun col => col.name = c) (l.map g) =
      idxOf? (fun p => p.1 = c) l := by
  induction l with
  | nil => rfl
  | cons a t ih =>
    simp only [List.map_cons, idxOf?, hg, ih]

theorem find?_append_of_none {α : Type} (p : α → Bool) (l : List α) (x : α)
    (h : l.find? p = none) (hx : p x = true) :
    (l ++ [x]).find? p = some x := by
  induction l with
  | nil => simp [List.find?_cons, hx]
  | cons u rest ih =>
    rw [List.find?_cons] at h
    by_cases hu : p u = true
    · simp [hu] at h
    · simp only [hu, Bool.false_eq_true, if_false] at h
      rw [List.cons_append, List.find?_cons]
      simp only [hu, Bool.false_eq_true, if_false]
      exact ih h

theorem getTable?_addTable (s : Store) (t : Table) (n : String)
    (habs : s.getTable? n = none) (hname : t.name = n) :
    (s.addTable t).getTable? n = some t := by
  unfold Store.getTable? Store.addTable at *
  exact find?_append_of_none _ s.tables t habs (by simp [hname])

/-- Under case-insensitively distinct column names, the first
case-insensitive match of the `i`-th column's name is position `i`
itself. -/
theorem idxOf?_ci_self (l : List (String × ColType)) (bi : Nat)
    (hbi : bi < l.length)
    (hnodup : (l.map (fun p => pyUpper p.1)).Nodup) :
    idxOf? (fun q => ciEq q.1 (l.get ⟨bi, hbi⟩).1) l = some bi := by
  induction l generalizing bi with
  | nil => simp at hbi
  | cons a t ih =>
    rcases bi with _ | j
    · unfold idxOf?
      simp [List.get, ciEq_refl]
    · have hj : j < t.length := by simpa using hbi
      have hget : (a :: t).get ⟨j + 1, hbi⟩ = t.get ⟨j, hj⟩ := rfl
      unfold idxOf?
      rw [hget]
      have hmem : pyUpper (t.get ⟨j, hj⟩).1 ∈ t.map (fun p => pyUpper p.1) :=
        List.mem_map_of_mem _ (t.get_mem j hj)
      have hne : ciEq a.1 (t.get ⟨j, hj⟩).1 = false := by
        rw [List.map_cons, List.nodup_cons] at hnodup
        by_cases hEq : pyUpper a.1 = pyUpper (t.get ⟨j, hj⟩).1
        · exact absurd (hEq ▸ hmem) hnodup.1
        · simpa [ciEq] using hEq
      rw [hne]
      simp only [Bool.false_eq_true, if_false]
      rw [ih j hj (by rw [List.map_cons, List.nodup_cons] at hnodup; exact hnodup.2)]
      rfl

/-- C2 counterexample: the round-trip claim quantifies over every
batch, but for the empty batch `create_alter_mssql_table` refuses to
create the absent table (returns `false`), so both subsequent
`insert_data_msssql` calls fail on the missing table and return the
error outcome `None`: the first call does not insert the batch and the
second returns `None`, not the `-1` sentinel. -/
theorem C2_roundtrip_counterexample :
    (insert_data_msssql
      (create_alter_mssql_table ⟨[]⟩ "NRG_Tower_SN_42"
        ⟨[("Timestamp", ColType.datetime64)], []⟩ "Timestamp" true).1
      "NRG_Tower_SN_42" ⟨[("Timestamp", ColType.datetime64)], []⟩
      "Timestamp" (Value.vStr "") "").2.1 = none ∧
    (insert_data_msssql
      (insert_data_msssql
        (create_alter_mssql_table ⟨[]⟩ "NRG_Tower_SN_42"
          ⟨[("Timestamp", ColType.datetime64)], []⟩ "Timestamp" true).1
        "NRG_Tower_SN_42" ⟨[("Timestamp", ColType.datetime64)], []⟩
        "Timestamp" (Value.vStr "") "").1
      "NRG_Tower_SN_42" ⟨[("Timestamp", ColType.datetime64)], []⟩
      "Timestamp" (Value.vStr "") "").2.1 = none ∧
    (none : Option Int) ≠ some (-1) := by
  refine ⟨by rfl, by rfl, by decide⟩

/-- C2 amended: for every non-empty batch that contains the key
column and whose column names are pairwise distinct case-insensitively,
running `create_alter_mssql_table` followed by `insert_data_msssql`
twice with identical batches against an initially absent table creates
the table, inserts the full batch on the first call (count =
batch size, appended frame = the batch rows), and returns the `-1`
"nothing new" sentinel on the second call, leaving the store unchanged
by the second call. -/
theorem C2_roundtrip_amended (store : Store) (table_name : String)
    (data : DataFrame) (pk_column : String) (pk_value : Value) (pk_flag : Bool)
    (bi : Nat)
    (habs : store.getTable? table_name = none)
    (hne : data.rows ≠ [])
    (hbi : data.colIdx? pk_column = some bi)
    (hnodup : (data.cols.map (fun p => pyUpper p.1)).Nodup) :
    (create_alter_mssql_table store table_name data pk_column pk_flag).2.1 = true ∧
    (insert_data_msssql
       (create_alter_mssql_table store table_name data pk_column pk_flag).1
       table_name data pk_column pk_value "").2.1 = some (data.rows.length : Int) ∧
    (insert_data_msssql
       (create_alter_mssql_table store table_name data pk_column pk_flag).1
       table_name data pk_column pk_value "").2.2 = data.rows ∧
    (insert_data_msssql
       (insert_data_msssql
         (create_alter_mssql_table store table_name data pk_column pk_flag).1
         table_name data pk_column pk_value "").1
       table_name data pk_column pk_value "").2.1 = some (-1) ∧
    (insert_data_msssql
       (insert_data_msssql
         (create_alter_mssql_table store table_name data pk_column pk_flag).1
         table_name data pk_column pk_value "").1
       table_name data pk_column pk_value "").1 =
      (insert_data_msssql
        (create_alter_mssql_table store table_name data pk_column pk_flag).1
        table_name data pk_column pk_value "").1 := by
  have hbi_lt : bi < data.cols.length := idxOf?_some_lt _ _ _ hbi
  have hpkany : data.cols.any (fun p => p.1 = pk_column) = true :=
    idxOf?_some_any _ _ _ hbi
  have hcolsne : data.cols ≠ [] := by
    intro hc
    rw [hc] at hbi_lt
    simp at hbi_lt
  have hempty : data.isEmpty = false := by
    unfold DataFrame.isEmpty
    simp [hne, hcolsne]
  have hhasF : store.hasTable table_name = false := by
    unfold Store.hasTable
    simp [habs]
  obtain ⟨tbl1, g, hg, hcreate, hcols1, hrows1, hname1⟩ :
      ∃ (tbl1 : Table) (g : String × ColType → Column),
        (∀ p, (g p).name = p.1) ∧
        create_alter_mssql_table store table_name data pk_column pk_flag =
          (store.addTable tbl1, true, []) ∧
        tbl1.cols = data.cols.map g ∧
        tbl1.rows = [] ∧
        tbl1.name = table_name := by
    cases pk_flag with
    | true =>
      refine ⟨⟨table_name,
        data.cols.map (fun p =>
          if (Column.mk p.1 (createTypeMap p.2) false).name = pk_column then
            { Column.mk p.1 (createTypeMap p.2) false with primary_key := true }
          else Column.mk p.1 (createTypeMap p.2) false), []⟩,
        (fun p =>
          if (Column.mk p.1 (createTypeMap p.2) false).name = pk_column then
            { Column.mk p.1 (createTypeMap p.2) false with primary_key := true }
          else Column.mk p.1 (createTypeMap p.2) false), ?_, ?_, rfl, rfl, rfl⟩
      · intro p
        by_cases hp : p.1 = pk_column <;> simp [hp]
      · simp only [create_alter_mssql_table, hempty, hhasF, hpkany, Bool.not_false,
          Bool.not_true, Bool.and_true, Bool.and_false, reduceIte, List.map_map]
        rfl
    | false =>
      refine ⟨⟨table_name,
        data.cols.map (fun p => Column.mk p.1 (createTypeMap p.2) false), []⟩,
        (fun p => Column.mk p.1 (createTypeMap p.2) false),
        (fun p => rfl), ?_, rfl, rfl, rfl⟩
      simp only [create_alter_mssql_table, hempty, hhasF, hpkany, Bool.not_false,
        Bool.not_true, Bool.and_true, Bool.and_false, reduceIte]
      rfl
  have hs1 : (store.addTable tbl1).getTable? table_name = some tbl1 :=
    getTable?_addTable store tbl1 table_name habs hname1
  have hti : tbl1.colIdx? pk_column = some bi := by
    unfold Table.colIdx?
    rw [hcols1, idxOf?_name_map g hg]
    exact hbi
  have hcolsall : data.cols.all
      (fun p => tbl1.cols.any (fun tc => ciEq p.1 tc.name)) = true := by
    rw [List.all_eq_true]
    intro p hp
    rw [hcols1, List.any_eq_true]
    exact ⟨g p, List.mem_map_of_mem _ hp, by rw [hg]; exact ciEq_refl p.1⟩
  have hrne : data.rows.isEmpty = false := by
    simp [List.isEmpty_iff, hne]
  have h1 := insert_modeA_spec (store.addTable tbl1) table_name data pk_column
    pk_value tbl1 bi bi hs1 hne hti hbi hcolsall
  simp only [hrows1, List.map_nil, List.any_nil, Bool.not_false, List.filter_true,
    List.nil_append, hrne, Bool.false_eq_true, if_false] at h1
  have halign : ∀ r : List Value,
      rowCell (alignRow tbl1 data.cols r) bi = rowCell r bi := by
    intro r
    unfold alignRow rowCell
    rw [hcols1, List.map_map, List.getD_eq_getElem?_getD, List.getElem?_map,
      List.getElem?_eq_getElem hbi_lt]
    have hself := idxOf?_ci_self data.cols bi hbi_lt hnodup
    rw [List.get_eq_getElem] at hself
    simp only [Option.map_some', Option.getD_some, Function.comp, hg, hself]
  have hex2 : (data.rows.map (alignRow tbl1 data.cols)).map
      (fun r => rowCell r bi) = data.rows.map (fun r => rowCell r bi) := by
    rw [List.map_map]
    exact List.map_congr_left (fun r _ => halign r)
  have hs2 : ((store.addTable tbl1).setTable
      { tbl1 with rows := data.rows.map (alignRow tbl1 data.cols) }).getTable?
      table_name =
      some { tbl1 with rows := data.rows.map (alignRow tbl1 data.cols) } :=
    getTable?_setTable (store.addTable tbl1) table_name tbl1 _ hs1 hname1
  have h2 := insert_modeA_spec
    ((store.addTable tbl1).setTable
      { tbl1 with rows := data.rows.map (alignRow tbl1 data.cols) })
    table_name data pk_column pk_value
    { tbl1 with rows := data.rows.map (alignRow tbl1 data.cols) }
    bi bi hs2 hne hti hbi hcolsall
  have hsurv2 : data.rows.filter
      (fun r => !(((data.rows.map (alignRow tbl1 data.cols)).map
        (fun r => rowCell r bi)).any (fun v => rowCell r bi = v))) = [] := by
    rw [List.filter_eq_nil_iff]
    intro r hr
    have hX : ((data.rows.map (alignRow tbl1 data.cols)).map
        (fun r => rowCell r bi)).any (fun v => rowCell r bi = v) = true := by
      rw [hex2, List.any_eq_true]
      exact ⟨rowCell r bi, List.mem_map_of_mem _ hr, by simp⟩
    rw [hX]
    decide
  simp only [hsurv2, List.isEmpty_nil, if_true, reduceIte] at h2
  refine ⟨by rw [hcreate], ?_, ?_, ?_, ?_⟩
  · simp only [hcreate, h1]
  · simp only [hcreate, h1]
  · simp only [hcreate, h1, h2]
  · simp only [hcreate, h1, h2]

/-- Concrete instantiation of `C2_roundtrip_amended`: a two-row batch
against an absent table is fully inserted by the first call (count 2)
and the second call returns `-1` leaving the store unchanged. -/
theorem C2_roundtrip_amended_witness :
    (create_alter_mssql_table ⟨[]⟩ "T"
      ⟨[("Timestamp", ColType.datetime64), ("Val1", ColType.int64)],
       [[Value.vDate 1, Value.vInt 10], [Value.vDate 2, Value.vInt 20]]⟩
      "Timestamp" true).2.1 = true ∧
    (insert_data_msssql
      (create_alter_mssql_table ⟨[]⟩ "T"
        ⟨[("Timestamp", ColType.datetime64), ("Val1", ColType.int64)],
         [[Value.vDate 1, Value.vInt 10], [Value.vDate 2, Value.vInt 20]]⟩
        "Timestamp" true).1
      "T" ⟨[("Timestamp", ColType.datetime64), ("Val1", ColType.int64)],
       [[Value.vDate 1, Value.vInt 10], [Value.vDate 2, Value.vInt 20]]⟩
      "Timestamp" (Value.vStr "") "").2.1 = some 2 ∧
    (insert_data_msssql
      (insert_data_msssql
        (create_alter_mssql_table ⟨[]⟩ "T"
          ⟨[("Timestamp", ColType.datetime64), ("Val1", ColType.int64)],
           [[Value.vDate 1, Value.vInt 10], [Value.vDate 2, Value.vInt 20]]⟩
          "Timestamp" true).1
        "T" ⟨[("Timestamp", ColType.datetime64), ("Val1", ColType.int64)],
         [[Value.vDate 1, Value.vInt 10], [Value.vDate 2, Value.vInt 20]]⟩
        "Timestamp" (Value.vStr "") "").1
      "T" ⟨[("Timestamp", ColType.datetime64), ("Val1", ColType.int64)],
       [[Value.vDate 1, Value.vInt 10], [Value.vDate 2, Value.vInt 20]]⟩
      "Timestamp" (Value.vStr "") "").2.1 = some (-1) := by
  have h := C2_roundtrip_amended ⟨[]⟩ "T"
    ⟨[("Timestamp", ColType.datetime64), ("Val1", ColType.int64)],
     [[Value.vDate 1, Value.vInt 10], [Value.vDate 2, Value.vInt 20]]⟩
    "Timestamp" (Value.vStr "") true 0 (by rfl) (by decide) (by rfl) (by decide)
  exact ⟨h.1, h.2.1, h.2.2.2.1⟩

theorem searchAux_not_found (needle : PyStr) (ls : List PyStr) (n : Int)
    (h : ∀ l ∈ ls, pyContains l needle = false) :
    searchAux needle ls n = ⟨-1, []⟩ := by
  induction ls generalizing n with
  | nil => rfl
  | cons l rest ih =>
    unfold searchAux
    rw [h l (List.mem_cons_self l rest)]
    simp only [Bool.false_eq_true, if_false]
    exact ih (n + 1) (fun x hx => h x (List.mem_cons_of_mem l hx))

theorem searchAux_found (needle : PyStr) (pre : List PyStr) (l : PyStr)
    (post : List PyStr) (n : Int)
    (hpre : ∀ p ∈ pre, pyContains p needle = false)
    (hl : pyContains l needle = true) :
    searchAux needle (pre ++ l :: post) n =
      ⟨n + (pre.length : Int), paramTransform needle l⟩ := by
  induction pre generalizing n with
  | nil =>
    rw [List.nil_append]
    unfold searchAux
    rw [hl]
    simp
  | cons p rest ih =>
    rw [List.cons_append]
    unfold searchAux
    rw [hpre p (List.mem_cons_self p rest)]
    simp only [Bool.false_eq_true, if_false]
    rw [ih (n + 1) (fun x hx => hpre x (List.mem_cons_of_mem p hx))]
    congr 1
    simp only [List.length_cons, Nat.cast_add, Nat.cast_one]
    ring

/-- C6: for `search_param_txt`, if no line of the document contains the
needle as a substring the sentinel `⟨-1, ""⟩` is returned as a normal
result; otherwise the result is the 1-based number of the first line
containing the needle, together with that line with the occurrences of
the needle removed, surrounding whitespace stripped, and remaining
spaces replaced by underscores (`paramTransform`). -/
theorem C6_find_param (doc : List PyStr) (needle : PyStr) :
    ((∀ l ∈ doc, pyContains l needle = false) →
      search_param_txt doc needle = ⟨-1, []⟩) ∧
    (∀ (pre : List PyStr) (l : PyStr) (post : List PyStr),
      doc = pre ++ l :: post →
      (∀ p ∈ pre, pyContains p needle = false) →
      pyContains l needle = true →
      search_param_txt doc needle =
        ⟨(pre.length : Int) + 1, paramTransform needle l⟩) := by
  constructor
  · intro h
    exact searchAux_not_found needle doc 1 h
  · intro pre l post hdoc hpre hl
    rw [hdoc]
    unfold search_param_txt
    rw [searchAux_found needle pre l post 1 hpre hl]
    congr 1
    ring

/-- Concrete instantiation of `C6_find_param`: in a document whose
second line is `"Site Number: 42"`, searching `"Site Number:"` yields
row 2 and value `"42"`. -/
theorem C6_find_param_witness :
    search_param_txt ["Logger".toList, "Site Number: 42".toList]
      "Site Number:".toList = ⟨2, "42".toList⟩ := by
  have h := (C6_find_param ["Logger".toList, "Site Number: 42".toList]
      "Site Number:".toList).2 ["Logger".toList] "Site Number: 42".toList []
      (by decide) (by decide) (by decide)
  rw [h]
  decide

/-- The skip phase of the loop: while the counter is below `skip_rows`
one line is consumed per iteration, so the loop continues on the
remaining lines with the counter saturated. -/
theorem gpLoop_skip (sr : Nat) (lines : List PyStr) (sc : Nat)
    (keys vals : List PyStr) (h : sc ≤ sr) :
    gpLoop sr lines sc keys vals =
      gpLoop sr (lines.drop (sr - sc)) sr keys vals := by
  induction lines generalizing sc with
  | nil => simp only [List.drop_nil, gpLoop]
  | cons line rest ih =>
    by_cases hsc : sc = sr
    · rw [hsc, Nat.sub_self, List.drop_zero]
    · have hlt : sc < sr := lt_of_le_of_ne h hsc
      have hk : sr - sc = (sr - (sc + 1)) + 1 := by omega
      rw [hk, List.drop_succ_cons]
      conv_lhs => simp only [gpLoop]
      rw [if_neg hsc]
      exact ih (sc + 1) hlt

/-- If no remaining line is blank after stripping, the loop exhausts the
file and control flows off the end of the Python function: `None`. -/
theorem gpLoop_no_blank (sr : Nat) (lines : List PyStr)
    (keys vals : List PyStr) (h : ∀ l ∈ lines, pyStrip l ≠ []) :
    gpLoop sr lines sr keys vals = .noneR := by
  induction lines generalizing keys vals with
  | nil => rfl
  | cons line rest ih =>
    unfold gpLoop
    rw [if_pos rfl, if_neg (h line (List.mem_cons_self line rest))]
    exact ih _ _ (fun x hx => h x (List.mem_cons_of_mem line hx))

/-- The accumulation phase: non-blank lines contribute one key/value
pair each until the first blank line, which terminates the block
(exclusively) and produces the zipped dictionary. -/
theorem gpLoop_block (sr : Nat) (pre : List PyStr) (b : PyStr)
    (rest : List PyStr) (keys vals : List PyStr)
    (hpre : ∀ l ∈ pre, pyStrip l ≠ []) (hb : pyStrip b = []) :
    gpLoop sr (pre ++ b :: rest) sr keys vals =
      .record (dictZip (keys ++ pre.map paramKey) (vals ++ pre.map paramValue)) := by
  induction pre generalizing keys vals with
  | nil =>
    rw [List.nil_append]
    unfold gpLoop
    rw [if_pos rfl, if_pos hb]
    simp
  | cons p rest2 ih =>
    rw [List.cons_append]
    unfold gpLoop
    rw [if_pos rfl, if_neg (hpre p (List.mem_cons_self p rest2))]
    rw [ih _ _ (fun x hx => hpre x (List.mem_cons_of_mem p hx))]
    simp [List.append_assoc]

/-- C10: if the parameter block is never terminated by a blank line
before the end of the document (the file ends while lines are still
being accumulated, or while skipping towards the start), the function
returns Python `None` — not the partially accumulated record and not an
empty record. -/
theorem C10_unterminated_block (doc : List PyStr) (header : PyStr)
    (param_line skip_rows : Int)
    (hrow : (if param_line = 0 then (search_param_txt doc header).row_num
      else param_line) > 0)
    (hskip : skip_rows ≥ 0)
    (hnoblank : ∀ l ∈ doc.drop
      (((if param_line = 0 then (search_param_txt doc header).row_num
         else param_line) - 1).toNat + skip_rows.toNat),
      pyStrip l ≠ []) :
    get_params_from_txt doc header param_line skip_rows = .noneR := by
  unfold get_params_from_txt
  rw [if_pos ⟨hrow, hskip⟩]
  by_cases hlen : doc.length <
      ((if param_line = 0 then (search_param_txt doc header).row_num
        else param_line) - 1).toNat
  · rw [if_pos hlen]
  · rw [if_neg hlen]
    rw [gpLoop_skip skip_rows.toNat _ 0 [] [] (Nat.zero_le _), Nat.sub_zero,
      List.drop_drop]
    apply gpLoop_no_blank
    exact hnoblank

/-- Concrete instantiation of `C10_unterminated_block`: a one-line
document whose single parameter line is never followed by a blank line
yields `None`. -/
theorem C10_unterminated_block_witness :
    get_params_from_txt ["Model: SymphoniePRO".toList] [] 1 0 =
      GPResult.noneR := by
  have h := C10_unterminated_block ["Model: SymphoniePRO".toList] [] 1 0
    (by decide) (by decide) (by decide)
  exact h

theorem dictUpd_fst (m : List (PyStr × PyStr)) (k v : PyStr) :
    (dictUpd m k v).map Prod.fst =
      if m.any (fun p => p.1 = k) then m.map Prod.fst
      else m.map Prod.fst ++ [k] := by
  unfold dictUpd
  by_cases h : m.any (fun p => p.1 = k) = true
  · rw [if_pos h, if_pos h, List.map_map]
    apply List.map_congr_left
    intro p _
    by_cases hp : p.1 = k <;> simp [Function.comp, hp]
  · rw [if_neg h, if_neg h, List.map_append]
    rfl

/-- Invariant of the `dict(zip(...))` fold: the key list stays
duplicate-free and its set is the accumulated set of first components. -/
theorem dictFold_fst (kvs : List (PyStr × PyStr)) :
    ∀ m : List (PyStr × PyStr), (m.map Prod.fst).Nodup →
      ((kvs.foldl (fun m p => dictUpd m p.1 p.2) m).map Prod.fst).Nodup ∧
      ((kvs.foldl (fun m p => dictUpd m p.1 p.2) m).map Prod.fst).toFinset =
        (m.map Prod.fst).toFinset ∪ (kvs.map Prod.fst).toFinset := by
  induction kvs with
  | nil =>
    intro m hm
    exact ⟨hm, by simp⟩
  | cons kv rest ih =>
    intro m hm
    rw [List.foldl_cons]
    by_cases h : m.any (fun p => p.1 = kv.1) = true
    · have hfst : (dictUpd m kv.1 kv.2).map Prod.fst = m.map Prod.fst := by
        rw [dictUpd_fst, if_pos h]
      have hrec := ih (dictUpd m kv.1 kv.2) (by rw [hfst]; exact hm)
      refine ⟨hrec.1, ?_⟩
      rw [hrec.2, hfst]
      have hk : kv.1 ∈ (m.map Prod.fst).toFinset := by
        rcases List.any_eq_true.mp h with ⟨p, hp, hpk⟩
        rw [List.mem_toFinset]
        exact (of_decide_eq_true hpk) ▸ List.mem_map_of_mem Prod.fst hp
      rw [List.map_cons, List.toFinset_cons, Finset.union_insert,
        Finset.insert_eq_self.mpr (Finset.mem_union_left _ hk)]
    · have hnotin : kv.1 ∉ m.map Prod.fst := by
        intro hmem
        rcases List.mem_map.mp hmem with ⟨p, hp, hpk⟩
        exact absurd (List.any_eq_true.mpr ⟨p, hp, by simp [hpk]⟩) h
      have hfst : (dictUpd m kv.1 kv.2).map Prod.fst =
          m.map Prod.fst ++ [kv.1] := by
        rw [dictUpd_fst, if_neg h]
      have hnodup2 : ((dictUpd m kv.1 kv.2).map Prod.fst).Nodup := by
        rw [hfst, List.nodup_append]
        exact ⟨hm, List.nodup_singleton _, by simp [hnotin]⟩
      have hrec := ih (dictUpd m kv.1 kv.2) hnodup2
      refine ⟨hrec.1, ?_⟩
      rw [hrec.2, hfst, List.toFinset_append, List.map_cons, List.toFinset_cons]
      simp only [List.toFinset_cons, List.toFinset_nil]
      rw [Finset.union_assoc, Finset.insert_union, Finset.empty_union]

/-- Python `dict(zip(keys, vals))` has exactly as many entries as there are
distinct keys (later duplicates overwrite, they do not add entries). -/
theorem dictZip_length (ks vs : List PyStr) (h : ks.length = vs.length) :
    (dictZip ks vs).length = ks.toFinset.card := by
  have hfold := dictFold_fst (ks.zip vs) [] (by simp)
  have h1 : (dictZip ks vs).length = ((dictZip ks vs).map Prod.fst).length :=
    (List.length_map _ _).symm
  have h2 : ((dictZip ks vs).map Prod.fst).length =
      ((dictZip ks vs).map Prod.fst).toFinset.card :=
    (List.toFinset_card_of_nodup hfold.1).symm
  rw [h1, h2]
  show ((((ks.zip vs).foldl (fun m p => dictUpd m p.1 p.2) []).map
      Prod.fst).toFinset).card = ks.toFinset.card
  rw [hfold.2]
  rw [List.map_fst_zip ks vs (le_of_eq h)]
  simp

/-- C7 counterexample: the claim says the block consists of the
lines *after* the start (and skipped) lines.  With start line 1 and
skip 0 the code parses the start line itself: for the document
`["x: 1", ""]` there are zero non-blank lines strictly after line 1 and
before the blank, yet the record has one key, taken from line 1. -/
theorem C7_counterexample :
    get_params_from_txt ["x: 1".toList, "".toList] [] 1 0 =
      GPResult.record [("x".toList, "1".toList)] ∧
    ([("x".toList, "1".toList)] : List (PyStr × PyStr)).length ≠ 0 := by
  exact ⟨by decide, by decide⟩

/-- C7 amended: `get_params_from_txt` with a positive start row
and non-negative skip count reads lines starting AT the start row after
skipping `skip_rows` further lines (the start row itself is parsed when
`skip_rows = 0`); parsing stops at the first line of that region that is
empty after stripping, exclusively: the record is built from exactly the
non-blank lines before it, never includes the terminating blank line,
and has exactly as many keys as there are distinct key texts among
those lines (duplicate keys are overwritten, not repeated). -/
theorem C7_parameter_block (doc : List PyStr) (header : PyStr)
    (param_line skip_rows : Int) (pre : List PyStr) (b : PyStr)
    (rest : List PyStr)
    (hrow : (if param_line = 0 then (search_param_txt doc header).row_num
      else param_line) > 0)
    (hskip : skip_rows ≥ 0)
    (hregion : doc.drop
      (((if param_line = 0 then (search_param_txt doc header).row_num
         else param_line) - 1).toNat + skip_rows.toNat) = pre ++ b :: rest)
    (hpre : ∀ l ∈ pre, pyStrip l ≠ [])
    (hb : pyStrip b = []) :
    get_params_from_txt doc header param_line skip_rows =
      GPResult.record (dictZip (pre.map paramKey) (pre.map paramValue)) ∧
    (dictZip (pre.map paramKey) (pre.map paramValue)).length =
      (pre.map paramKey).toFinset.card := by
  refine ⟨?_, dictZip_length _ _ (by simp)⟩
  unfold get_params_from_txt
  rw [if_pos ⟨hrow, hskip⟩]
  have hnonnil : doc.drop
      (((if param_line = 0 then (search_param_txt doc header).row_num
         else param_line) - 1).toNat + skip_rows.toNat) ≠ [] := by
    rw [hregion]
    simp
  have hlt : (((if param_line = 0 then (search_param_txt doc header).row_num
      else param_line) - 1).toNat + skip_rows.toNat) < doc.length := by
    by_contra hc
    push_neg at hc
    exact hnonnil (List.drop_eq_nil_of_le hc)
  rw [if_neg (by omega)]
  rw [gpLoop_skip skip_rows.toNat _ 0 [] [] (Nat.zero_le _), Nat.sub_zero,
    List.drop_drop, hregion, gpLoop_block _ pre b rest [] [] hpre hb]
  simp

/-- Concrete instantiation of `C7_parameter_block`: start row 1 with one
skipped line; the two non-blank lines before the blank produce a record
with exactly two keys and the blank line contributes nothing. -/
theorem C7_parameter_block_witness :
    get_params_from_txt
      ["Export Parameters".toList, "a: 1".toList, "b: 2".toList, "".toList]
      [] 1 1 =
      GPResult.record [("a".toList, "1".toList), ("b".toList, "2".toList)] ∧
    (2 : Nat) = 2 := by
  have h := C7_parameter_block
    ["Export Parameters".toList, "a: 1".toList, "b: 2".toList, "".toList]
    [] 1 1 ["a: 1".toList, "b: 2".toList] "".toList []
    (by decide) (by decide) (by decide) (by decide) (by decide)
  refine ⟨?_, rfl⟩
  rw [h.1]
  decide

/-- Number of positions of `s` at which `pat` occurs as a substring. -/
def countOcc (pat : PyStr) : PyStr → Nat
  | [] => 0
  | s@(_ :: rest) => (if pyStartsWith s pat then 1 else 0) + countOcc pat rest

/-- String `s` with only the first (leftmost) occurrence of `pat` removed — the
claim's reading of "the original line with the prefix key+`:`
removed". -/
def removeFirst (pat : PyStr) : PyStr → PyStr
  | [] => []
  | a :: rest =>
    if pyStartsWith (a :: rest) pat then (a :: rest).drop pat.length
    else a :: removeFirst pat rest

theorem countOcc_zero_drop (pat s : PyStr) (h : countOcc pat s = 0) (n : Nat) :
    countOcc pat (s.drop n) = 0 := by
  induction s generalizing n with
  | nil =>
    rw [List.drop_nil]
    exact h
  | cons a rest ih =>
    cases n with
    | zero => exact h
    | succ m =>
      rw [List.drop_succ_cons]
      have hrest : countOcc pat rest = 0 := by
        unfold countOcc at h
        omega
      exact ih hrest m

theorem pyReplaceF_no_occ (pat rep s : PyStr) (fuel : Nat)
    (h : countOcc pat s = 0) : pyReplaceF fuel pat rep s = s := by
  induction fuel generalizing s with
  | zero => rfl
  | succ f ih =>
    cases s with
    | nil => rfl
    | cons a rest =>
      have hs : pyStartsWith (a :: rest) pat = false := by
        unfold countOcc at h
        by_cases hx : pyStartsWith (a :: rest) pat = true
        · rw [hx] at h
          simp at h
        · simpa using hx
      have hrest : countOcc pat rest = 0 := by
        unfold countOcc at h
        rw [hs] at h
        simpa using h
      unfold pyReplaceF
      rw [hs]
      simp only [Bool.false_eq_true, if_false]
      rw [ih rest hrest]

theorem pyReplaceF_single (pat : PyStr) (hpat : pat ≠ []) (fuel : Nat) :
    ∀ s : PyStr, s.length ≤ fuel → countOcc pat s = 1 →
      pyReplaceF fuel pat [] s = removeFirst pat s := by
  induction fuel with
  | zero =>
    intro s hfuel h
    cases s with
    | nil => simp [countOcc] at h
    | cons a rest => simp at hfuel
  | succ f ih =>
    intro s hfuel h
    cases s with
    | nil => simp [countOcc] at h
    | cons a rest =>
      by_cases hs : pyStartsWith (a :: rest) pat = true
      · have hrest : countOcc pat rest = 0 := by
          unfold countOcc at h
          rw [hs] at h
          simp at h
          omega
        have hdrop : countOcc pat ((a :: rest).drop pat.length) = 0 := by
          cases pat with
          | nil => exact absurd rfl hpat
          | cons p ps =>
            rw [show (p :: ps).length = ps.length + 1 from rfl,
              List.drop_succ_cons]
            exact countOcc_zero_drop (p :: ps) rest hrest ps.length
        unfold pyReplaceF removeFirst
        rw [hs]
        simp only [if_true, List.nil_append]
        rw [pyReplaceF_no_occ _ _ _ _ hdrop]
      · have hsf : pyStartsWith (a :: rest) pat = false := by simpa using hs
        have hrest : countOcc pat rest = 1 := by
          unfold countOcc at h
          rw [hsf] at h
          simp at h
          omega
        have hlen : rest.length ≤ f := by
          simp only [List.length_cons] at hfuel
          omega
        unfold pyReplaceF removeFirst
        rw [hsf]
        simp only [Bool.false_eq_true, if_false]
        rw [ih rest hlen hrest]

/-- When `pat` occurs exactly once in `s`, Python's replace-all
`s.replace(pat, "")` coincides with removing just that occurrence. -/
theorem pyReplace_single_occ (pat s : PyStr) (h : countOcc pat s = 1) :
    pyReplace pat [] s = removeFirst pat s := by
  by_cases hp : pat = []
  · subst hp
    unfold pyReplace
    simp only [List.isEmpty_nil, if_true]
    cases s with
    | nil => rfl
    | cons a rest =>
      unfold removeFirst
      rw [show pyStartsWith (a :: rest) [] = true from rfl]
      simp
  · unfold pyReplace
    have hne : pat.isEmpty = false := by
      cases pat
      · exact absurd rfl hp
      · rfl
    rw [hne]
    simp only [Bool.false_eq_true, if_false]
    exact pyReplaceF_single pat hp s.length s (le_refl _) h

theorem pyStartsWith_append (p w : PyStr) : pyStartsWith (p ++ w) p = true := by
  induction p with
  | nil =>
    rw [List.nil_append]
    cases w <;> rfl
  | cons a t ih => simp [pyStartsWith, ih]

theorem removeFirst_append (p w : PyStr) (hp : p ≠ []) :
    removeFirst p (p ++ w) = w := by
  cases p with
  | nil => exact absurd rfl hp
  | cons a t =>
    rw [List.cons_append]
    unfold removeFirst
    rw [← List.cons_append, pyStartsWith_append]
    simp only [if_true]
    rw [List.cons_append, show (a :: t).length = t.length + 1 from rfl,
      List.drop_succ_cons]
    exact List.drop_left t w

/-- C8 counterexample: the claim says the value is the original
line with the *prefix* `key+":"` removed.  The code removes *every*
occurrence (`str.replace`): on the line `"a: a: b"` the key is `"a"`,
the prefix-removal reading yields `"a: b"`, but the code yields `"b"`
because the second occurrence of `"a:"` is removed as well. -/
theorem C8_counterexample :
    paramValue "a: a: b".toList = "b".toList ∧
    pyStrip (stripCtl (pyStrip
      (removeFirst ("a".toList ++ [':']) "a: a: b".toList))) = "a: b".toList ∧
    ("b".toList : PyStr) ≠ "a: b".toList := by
  exact ⟨by decide, by decide, by decide⟩

/-- C8 amended: for a line whose stripped form splits at colons
with first component `k`, the stored key is `k` trimmed and the stored
value is the original line with every occurrence of `k+":"` removed,
then trimmed and stripped of tab/LF/CR.  Whenever `k+":"` occurs in the
line exactly once this equals removing just that first occurrence — in
particular for a line `k ++ ":" ++ v` the value is the cleanup of `v`,
so colons embedded inside the value are preserved. -/
theorem C8_value_recovery (l k : PyStr) (restSplit : List PyStr)
    (hsplit : pySplit ':' (pyStrip l) = k :: restSplit)
    (hone : countOcc (k ++ [':']) l = 1) :
    paramKey l = pyStrip k ∧
    paramValue l = pyStrip (stripCtl (pyStrip (removeFirst (k ++ [':']) l))) ∧
    (∀ v : PyStr, l = k ++ ':' :: v →
      paramValue l = pyStrip (stripCtl (pyStrip v))) := by
  have hhead : pySplitHead l = k := by
    unfold pySplitHead
    rw [hsplit]
    rfl
  refine ⟨?_, ?_, ?_⟩
  · unfold paramKey
    rw [hhead]
  · unfold paramValue
    rw [hhead, pyReplace_single_occ _ _ hone]
  · intro v hv
    unfold paramValue
    rw [hhead, pyReplace_single_occ _ _ hone, hv, List.append_cons k ':' v,
      removeFirst_append (k ++ [':']) v (by simp)]

/-- Concrete instantiation of `C8_value_recovery`: the line
`"Time: 12:30"` yields key `"Time"` and value `"12:30"` — the colon
inside the value survives. -/
theorem C8_value_recovery_witness :
    paramKey "Time: 12:30".toList = "Time".toList ∧
    paramValue "Time: 12:30".toList = "12:30".toList := by
  have h := C8_value_recovery "Time: 12:30".toList "Time".toList
    [" 12".toList, "30".toList] (by decide) (by decide)
  refine ⟨?_, ?_⟩
  · rw [h.1]
    decide
  · rw [h.2.1]
    decide

/-- The table after a run of committed `ALTER ... ADD` operations: one
appended column per added batch column (via `alterTypeMap`), existing
rows padded with NULL. -/
def alterExtend (tbl : Table) (added : List (String × ColType)) : Table :=
  { tbl with
    cols := tbl.cols ++ added.map (fun p => ⟨p.1, alterTypeMap p.2, false⟩),
    rows := tbl.rows.map (fun r => r ++ added.map (fun _ => Value.vNull)) }

/-- The ALTER loop of `create_alter_mssql_table` against a store whose
ALTER operation may raise: `ar c = true` means `cursor.execute` for
column `c` raises a store error.  Each successful ALTER is committed
(`conn.commit()`) before the next one, so a raise leaves the columns
added before it in place; the loop stops at the raising operation —
nothing after it is attempted and the raising ALTER itself is attempted
exactly once.  Returns the table as left in the store, whether the loop
completed, and the log of committed ALTERs. -/
def alterLoop (ar : String → Bool) (tbl : Table) :
    List (String × ColType) → Table × Bool × List (String × String)
  | [] => (tbl, true, [])
  | p :: rest =>
    if ar p.1 then (tbl, false, [])
    else
      let res := alterLoop ar (alterExtend tbl [p]) rest
      (res.1, res.2.1, (p.1, alterTypeMap p.2) :: res.2.2)

/-- Embedding of `create_alter_mssql_table` against a store whose ALTER
operation may raise (`SQLAlchemyError` from `cursor.execute`), the one
store operation of the schema path the source performs inside a loop.
All branches are those of `create_alter_mssql_table`; in the
existing-table branch the ALTER loop may stop at a raising operation,
in which case the except handler logs the error and returns `false` —
the same boolean the missing-key and empty-batch outcomes return. -/
def create_alter_mssql_table_err (store : Store) (table_name : String)
    (data_to_insert : DataFrame) (pk_column : String) (pk_flag : Bool)
    (alterRaises : String → Bool) : Store × Bool × List (String × String) :=
  let tbl_exist := store.hasTable table_name
  if !data_to_insert.isEmpty then
    if !tbl_exist then
      let mssql_cols : List Column :=
        data_to_insert.cols.map (fun p => ⟨p.1, createTypeMap p.2, false⟩)
      if data_to_insert.cols.any (fun p => p.1 = pk_column) && pk_flag then
        let cols' := mssql_cols.map
          (fun c => if c.name = pk_column then { c with primary_key := true } else c)
        (store.addTable ⟨table_name, cols', []⟩, true, [])
      else if data_to_insert.cols.any (fun p => p.1 = pk_column) && !pk_flag then
        (store.addTable ⟨table_name, mssql_cols, []⟩, true, [])
      else
        (store, false, [])
    else
      match store.getTable? table_name with
      | none => (store, false, [])
      | some tbl =>
        let lj_col_names :=
          leftOnly (fun (p : String × ColType) (c : Column) => ciEq p.1 c.name)
            data_to_insert.cols tbl.cols
        let res := alterLoop alterRaises tbl lj_col_names
        (store.setTable res.1, res.2.1, res.2.2)
  else
    (store, false, [])

theorem alterExtend_nil (tbl : Table) : alterExtend tbl [] = tbl := by
  unfold alterExtend
  simp

theorem alterExtend_cons (tbl : Table) (p : String × ColType)
    (ms : List (String × ColType)) :
    alterExtend (alterExtend tbl [p]) ms = alterExtend tbl (p :: ms) := by
  unfold alterExtend
  simp [List.map_map, Function.comp, List.append_assoc]

theorem alterLoop_no_raise (ar : String → Bool) (tbl : Table)
    (ms : List (String × ColType)) (h : ∀ p ∈ ms, ar p.1 = false) :
    alterLoop ar tbl ms =
      (alterExtend tbl ms, true, ms.map (fun p => (p.1, alterTypeMap p.2))) := by
  induction ms generalizing tbl with
  | nil =>
    rw [alterExtend_nil]
    rfl
  | cons p rest ih =>
    unfold alterLoop
    rw [h p (List.mem_cons_self p rest)]
    simp only [Bool.false_eq_true, if_false]
    rw [ih (alterExtend tbl [p]) (fun x hx => h x (List.mem_cons_of_mem p hx)),
      alterExtend_cons]
    rfl

theorem alterLoop_raise (ar : String → Bool) (tbl : Table)
    (pre : List (String × ColType)) (c : String × ColType)
    (post : List (String × ColType))
    (hpre : ∀ p ∈ pre, ar p.1 = false) (hc : ar c.1 = true) :
    alterLoop ar tbl (pre ++ c :: post) =
      (alterExtend tbl pre, false, pre.map (fun p => (p.1, alterTypeMap p.2))) := by
  induction pre generalizing tbl with
  | nil =>
    rw [List.nil_append, alterExtend_nil]
    unfold alterLoop
    rw [hc]
    rfl
  | cons p rest ih =>
    rw [List.cons_append]
    unfold alterLoop
    rw [hpre p (List.mem_cons_self p rest)]
    simp only [Bool.false_eq_true, if_false]
    rw [ih (alterExtend tbl [p]) (fun x hx => hpre x (List.mem_cons_of_mem p hx)),
      alterExtend_cons]
    rfl

/-- The fallible embedding is conservative: with a store that never
raises, `create_alter_mssql_table_err` coincides with
`create_alter_mssql_table` on every input. -/
theorem create_alter_err_no_raise (store : Store) (table_name : String)
    (data_to_insert : DataFrame) (pk_column : String) (pk_flag : Bool) :
    create_alter_mssql_table_err store table_name data_to_insert pk_column
      pk_flag (fun _ => false) =
    create_alter_mssql_table store table_name data_to_insert pk_column pk_flag := by
  unfold create_alter_mssql_table_err create_alter_mssql_table
  cases hM : store.getTable? table_name with
  | none =>
    simp [Store.hasTable, hM]
  | some tbl =>
    by_cases hemp : data_to_insert.isEmpty
    · simp [Store.hasTable, hM, hemp]
    · simp only [Store.hasTable, hM, Option.isSome_some, Bool.not_true,
      Bool.not_eq_true, Bool.not_false, eq_self_iff_true, if_true,
      Bool.false_eq_true, if_false, hemp]
      rw [alterLoop_no_raise (fun _ => false) tbl _ (fun _ _ => rfl)]
      rfl

/-- C9 counterexample: a store error is not propagated up to the
caller.  On the schema path, the ALTER for `NewMetric` raises and the
caller receives plain `false` — exactly the value the MissingKeyColumn
outcome returns on a run with no store error at all, so the caller
cannot distinguish the store error from a normal failure outcome; on
the insert path the store error is likewise swallowed into the `None`
return.  The errors are caught and logged, never re-raised. -/
theorem C9_counterexample :
    (create_alter_mssql_table_err
      ⟨[⟨"T", [⟨"Timestamp", "DateTime", true⟩], [[Value.vDate 1]]⟩]⟩ "T"
      ⟨[("Timestamp", ColType.datetime64), ("NewMetric", ColType.float64)],
       [[Value.vDate 2, Value.vInt 0]]⟩
      "Timestamp" true (fun c => c = "NewMetric")).2.1 = false ∧
    (create_alter_mssql_table ⟨[]⟩ "T"
      ⟨[("Val1", ColType.int64)], [[Value.vInt 7]]⟩ "Timestamp" true).2.1 =
      false ∧
    (insert_data_msssql ⟨[]⟩ "T"
      ⟨[("Timestamp", ColType.datetime64)], [[Value.vDate 1]]⟩
      "Timestamp" (Value.vStr "") "").2.1 = none := by
  exact ⟨by decide, by rfl, by rfl⟩

/-- C9 amended: when the relational store raises during a schema or
insert operation, the core catches the error at that operation, does
not retry it and issues no further store operation, and returns the
failure sentinel to the caller instead of propagating the error.
Schema path: the ALTERs committed before the raising one persist, the
raising ALTER is attempted exactly once, nothing after it is attempted
(the effect log is exactly the pre-failure ALTERs), and the caller
receives `false` — the same value as the missing-key outcome.  Insert
path: a failing initial query leaves the store unchanged, appends
nothing, and the caller receives `None`. -/
theorem C9_error_swallowed_no_retry :
    (∀ (store : Store) (table_name : String) (df : DataFrame)
       (pk_column : String) (pk_flag : Bool) (ar : String → Bool)
       (tbl : Table) (pre : List (String × ColType)) (c : String × ColType)
       (post : List (String × ColType)),
       store.getTable? table_name = some tbl →
       df.isEmpty = false →
       missingCols tbl df = pre ++ c :: post →
       (∀ p ∈ pre, ar p.1 = false) → ar c.1 = true →
       create_alter_mssql_table_err store table_name df pk_column pk_flag ar =
         (store.setTable (alterExtend tbl pre), false,
          pre.map (fun p => (p.1, alterTypeMap p.2)))) ∧
    (∀ (store : Store) (table_name : String) (df : DataFrame)
       (pk_column : String) (pk_value : Value) (fk_column : String),
       (store.getTable? table_name = none ∨
         (∃ tbl, store.getTable? table_name = some tbl ∧ fk_column = "" ∧
           tbl.colIdx? pk_column = none) ∨
         (∃ tbl, store.getTable? table_name = some tbl ∧ fk_column ≠ "" ∧
           (tbl.colIdx? pk_column = none ∨ tbl.colIdx? fk_column = none))) →
       insert_data_msssql store table_name df pk_column pk_value fk_column =
         (store, none, [])) := by
  constructor
  · intro store table_name df pk_column pk_flag ar tbl pre c post
      htbl hemp hmiss hpre hc
    have hlj : leftOnly (fun (p : String × ColType) (col : Column) =>
        ciEq p.1 col.name) df.cols tbl.cols = pre ++ c :: post := by
      rw [leftOnly_eq_filter]
      exact hmiss
    unfold create_alter_mssql_table_err
    simp only [Store.hasTable, htbl, Option.isSome_some, Bool.not_true,
      Bool.false_eq_true, if_false, hemp, Bool.not_false, if_true, hlj]
    rw [alterLoop_raise ar tbl pre c post hpre hc]
  · intro store table_name df pk_column pk_value fk_column herr
    exact insert_error_spec store table_name df pk_column pk_value
      fk_column herr

/-- Concrete instantiation of `C9_error_swallowed_no_retry`: with a
table holding only `Timestamp` and a batch adding `ColA` and `ColB`,
the store raising on the `ColB` ALTER leaves `ColA` committed, logs
exactly one ALTER, and returns `false`; an insert against an absent
table returns `None` with the store untouched. -/
theorem C9_error_swallowed_no_retry_witness :
    create_alter_mssql_table_err
      ⟨[⟨"T", [⟨"Timestamp", "DateTime", true⟩], [[Value.vDate 1]]⟩]⟩ "T"
      ⟨[("Timestamp", ColType.datetime64), ("ColA", ColType.float64),
        ("ColB", ColType.int64)],
       [[Value.vDate 2, Value.vInt 0, Value.vInt 1]]⟩
      "Timestamp" true (fun c => c = "ColB") =
      (⟨[⟨"T", [⟨"Timestamp", "DateTime", true⟩, ⟨"ColA", "FLOAT", false⟩],
         [[Value.vDate 1, Value.vNull]]⟩]⟩, false, [("ColA", "FLOAT")]) ∧
    insert_data_msssql ⟨[]⟩ "T"
      ⟨[("Timestamp", ColType.datetime64)], [[Value.vDate 1]]⟩
      "Timestamp" (Value.vStr "") "" = (⟨[]⟩, none, []) := by
  constructor
  · have h1 := C9_error_swallowed_no_retry.1
      ⟨[⟨"T", [⟨"Timestamp", "DateTime", true⟩], [[Value.vDate 1]]⟩]⟩ "T"
      ⟨[("Timestamp", ColType.datetime64), ("ColA", ColType.float64),
        ("ColB", ColType.int64)],
       [[Value.vDate 2, Value.vInt 0, Value.vInt 1]]⟩
      "Timestamp" true (fun c => c = "ColB")
      ⟨"T", [⟨"Timestamp", "DateTime", true⟩], [[Value.vDate 1]]⟩
      [("ColA", ColType.float64)] ("ColB", ColType.int64) []
      (by rfl) (by rfl) (by decide) (by decide) (by decide)
    rw [h1]
    decide
  · exact C9_error_swallowed_no_retry.2 ⟨[]⟩ "T"
      ⟨[("Timestamp", ColType.datetime64)], [[Value.vDate 1]]⟩
      "Timestamp" (Value.vStr "") "" (Or.inl (by rfl))
